import Mathlib

/-!
Verification development for the Bratislava public-transport live map
(vehicle feed normalisation, poll backoff, heading estimation, route
chunking/stitching and trip-stop parsing).

The TypeScript sources are embedded shallowly:
* JS `Map` objects become insertion-ordered association lists (`alGet`,
  `alSet` below mirror `Map.get` / `Map.set`);
* JS numbers become `ℚ` (integral identifiers become `Int`), and fields
  the code reads defensively (with `??` / `?.`) become `Option`;
* `Date.now()` becomes an explicit `now : Nat` argument;
* host capabilities (Mercator projection, `Math.atan2`,
  `queryRenderedFeatures`-based road matching, `Number.parseFloat`)
  become function parameters.
-/

/-! ## Association-list model of a JS `Map` -/

/-- `Map.get`: first (= only) binding of the key, if any. -/
def alGet {κ α : Type} [DecidableEq κ] : List (κ × α) → κ → Option α
  | [], _ => none
  | kv :: rest, k => if kv.1 = k then some kv.2 else alGet rest k

/-- `Map.set`: replace the existing binding in place, else append. -/
def alSet {κ α : Type} [DecidableEq κ] : List (κ × α) → κ → α → List (κ × α)
  | [], k, v => [(k, v)]
  | kv :: rest, k, v => if kv.1 = k then (k, v) :: rest else kv :: alSet rest k v

theorem alGet_alSet {κ α : Type} [DecidableEq κ] (m : List (κ × α)) (k k' : κ) (v : α) :
    alGet (alSet m k v) k' = if k' = k then some v else alGet m k' := by
  induction m with
  | nil =>
    by_cases h : k' = k
    · subst h; simp [alSet, alGet]
    · have h2 : ¬ (k = k') := fun hc => h hc.symm
      simp [alSet, alGet, h, h2]
  | cons kv rest ih =>
    by_cases hk : kv.1 = k
    · rw [alSet, if_pos hk]
      by_cases h : k' = k
      · subst h; simp [alGet]
      · have h2 : ¬ (k = k') := fun hc => h hc.symm
        have h3 : ¬ (kv.1 = k') := fun hc => h2 (hk ▸ hc)
        simp [alGet, h, h2, h3]
    · rw [alSet, if_neg hk]
      by_cases hv : kv.1 = k'
      · have h : ¬ (k' = k) := fun hc => hk (by rw [hv, hc])
        simp [alGet, hv, h]
      · simp [alGet, hv, ih]

theorem alGet_filter_keys {κ α : Type} [DecidableEq κ] (m : List (κ × α))
    (p : κ → Bool) (k : κ) :
    (alGet (m.filter (fun kv => p kv.1)) k).isSome ↔ (alGet m k).isSome ∧ p k = true := by
  induction m with
  | nil => simp [alGet]
  | cons kv rest ih =>
    by_cases hk : kv.1 = k
    · subst hk
      by_cases hp : p kv.1 = true
      · simp [List.filter_cons, hp, alGet]
      · simp [List.filter_cons, hp, alGet, ih]
    · by_cases hp : p kv.1 = true
      · simp [List.filter_cons, hp, alGet, hk, ih]
      · simp [List.filter_cons, hp, alGet, hk, ih]

/-! ## Position normaliser (src/utils/normalize.ts)

Raw feed records are modelled with every field optional: the normaliser
itself guards nearly every access with `??` or `?.` (its own comment says
it "handles missing / alternate field names defensively"), so the runtime
contract is that any field may be absent. -/

structure TimeTableLine where
  ezLineType : Option String
  ezVehicleType : Option String
  line : Option String
  lineName : Option String
deriving DecidableEq

structure TimeTableTrip where
  tripID : Option Int
  destination : Option String
  ezTripDirection : Option String
  destinationStopName : Option String
  lowFloor : Option Bool
  timeTableLine : Option TimeTableLine
  operatorName : Option String
deriving DecidableEq

structure RawVehicle where
  vehicleID : Option Int
  delayMinutes : Option ℚ
  latitude : Option ℚ
  longitude : Option ℚ
  timeTableTrip : Option TimeTableTrip
  lastCommunication : Option String
  lastStopOrder : Option Int
  isOnStop : Option Bool
  tooltip : Option String
deriving DecidableEq

/-- Normalised, app-internal vehicle record (src/types, `Vehicle`).
`vehicleID` stays optional because `normalizeVehicle` copies
`raw.vehicleID` through without a default. -/
structure Vehicle where
  id : String
  vehicleID : Option Int
  latitude : ℚ
  longitude : ℚ
  prevLatitude : Option ℚ
  prevLongitude : Option ℚ
  line : String
  lineName : String
  vehicleType : String
  vehicleTypeClass : String
  destination : String
  destinationStop : String
  delayMinutes : ℚ
  lowFloor : Bool
  tooltip : Option String
  tripDirection : String
  operatorName : String
  lastCommunication : String
  lastStopOrder : Int
  isOnStop : Bool
  lastSeen : Nat
  tripID : Int
deriving DecidableEq

/-- `raw.timeTableTrip?.timeTableLine` -/
def rawLine (raw : RawVehicle) : Option TimeTableLine :=
  raw.timeTableTrip.bind TimeTableTrip.timeTableLine

/-- `resolveVehicleType`: primary field `ezVehicleType` (upper-cased, exact
match), else `ezLineType` (lower-cased), else `"UNKNOWN"`. -/
def resolveVehicleType (raw : RawVehicle) : String :=
  let vt := ((rawLine raw).bind TimeTableLine.ezVehicleType).map String.toUpper
  if vt = some "TRAM" ∨ vt = some "BUS" ∨ vt = some "TROLLEY" then vt.getD "UNKNOWN"
  else
    let lt := ((rawLine raw).bind TimeTableLine.ezLineType).map String.toLower
    if lt = some "tram" then "TRAM"
    else if lt = some "bus" then "BUS"
    else if lt = some "trolley" then "TROLLEY"
    else "UNKNOWN"

/-- JS template-literal rendering of a possibly-missing integer field:
`undefined` interpolates as the literal string "undefined". -/
def jsNumStr : Option Int → String
  | none => "undefined"
  | some n => toString n

/-- `makeId`: the composite key is built by direct string interpolation,
with no defaulting of missing fields. -/
def makeId (raw : RawVehicle) : String :=
  jsNumStr raw.vehicleID ++ "-" ++ jsNumStr raw.lastStopOrder

/-- `normalizeVehicle raw existingMap now` - `now` models `Date.now()`. -/
def normalizeVehicle (raw : RawVehicle) (existingMap : Option (List (String × Vehicle)))
    (now : Nat) : Vehicle :=
  let id := makeId raw
  let existing : Option Vehicle := existingMap.bind (fun m => alGet m id)
  let vType := resolveVehicleType raw
  { id := id
    vehicleID := raw.vehicleID
    latitude := raw.latitude.getD 0
    longitude := raw.longitude.getD 0
    prevLatitude := existing.map Vehicle.latitude
    prevLongitude := existing.map Vehicle.longitude
    line := ((rawLine raw).bind TimeTableLine.line).getD "?"
    lineName := ((rawLine raw).bind TimeTableLine.lineName).getD ""
    vehicleType := vType
    vehicleTypeClass := vType.toLower
    destination := (raw.timeTableTrip.bind TimeTableTrip.destination).getD ""
    destinationStop := (raw.timeTableTrip.bind TimeTableTrip.destinationStopName).getD ""
    delayMinutes := raw.delayMinutes.getD 0
    lowFloor := (raw.timeTableTrip.bind TimeTableTrip.lowFloor).getD false
    tooltip := raw.tooltip
    tripDirection := (raw.timeTableTrip.bind TimeTableTrip.ezTripDirection).getD ""
    operatorName := (raw.timeTableTrip.bind TimeTableTrip.operatorName).getD ""
    lastCommunication := raw.lastCommunication.getD ""
    lastStopOrder := raw.lastStopOrder.getD 0
    isOnStop := raw.isOnStop.getD false
    lastSeen := now
    tripID := (raw.timeTableTrip.bind TimeTableTrip.tripID).getD 0 }

/-- `normalizeVehicles`: fresh map built with `Map.set` per record. -/
def normalizeVehicles (rawList : List RawVehicle)
    (existingMap : Option (List (String × Vehicle))) (now : Nat) :
    List (String × Vehicle) :=
  rawList.foldl (fun map raw =>
    let v := normalizeVehicle raw existingMap now
    alSet map v.id v) []

/-- A raw record with every field absent (all-defaults path). -/
def emptyRaw : RawVehicle :=
  { vehicleID := none, delayMinutes := none, latitude := none, longitude := none
    timeTableTrip := none, lastCommunication := none, lastStopOrder := none
    isOnStop := none, tooltip := none }

/-! ## Claims C3, C4, C5 - normaliser properties -/

/-- Claim C3: for a raw record whose composite id is a key of the previous
map, the normalized record's prevLatitude/prevLongitude are exactly the
previous record's latitude/longitude; for a composite id absent from the
previous map they are unset. -/
theorem C3_prev_position_copied (raw : RawVehicle) (m : List (String × Vehicle)) (now : Nat) :
    (∀ ex : Vehicle, alGet m (makeId raw) = some ex →
      (normalizeVehicle raw (some m) now).prevLatitude = some ex.latitude ∧
      (normalizeVehicle raw (some m) now).prevLongitude = some ex.longitude) ∧
    (alGet m (makeId raw) = none →
      (normalizeVehicle raw (some m) now).prevLatitude = none ∧
      (normalizeVehicle raw (some m) now).prevLongitude = none) := by
  constructor
  · intro ex h
    simp [normalizeVehicle, h]
  · intro h
    simp [normalizeVehicle, h]

/-- Raw record carrying only physical id 7, stop order 3 and a position. -/
def rawA : RawVehicle :=
  { emptyRaw with vehicleID := some 7, lastStopOrder := some 3,
                  latitude := some (4815/100), longitude := some (1711/100) }

/-- The canonical record produced from `rawA` at time 0. -/
def vehA : Vehicle := normalizeVehicle rawA none 0

/-- One-entry previous canonical map keyed by the composite id "7-3". -/
def mapA : List (String × Vehicle) := [("7-3", vehA)]

/-- Witness for C3 at concrete inputs. -/
theorem C3_witness :
    (normalizeVehicle rawA (some mapA) 5).prevLatitude = some vehA.latitude ∧
    (normalizeVehicle rawA (some mapA) 5).prevLongitude = some vehA.longitude :=
  (C3_prev_position_copied rawA mapA 5).1 vehA rfl

/-- The composite id exactly as the spec sentence describes it (missing
numeric fields replaced by 0 before forming the id); written from the
spec's words for comparison against the source's `makeId`. -/
def specCompositeId (raw : RawVehicle) : String :=
  toString (raw.vehicleID.getD 0) ++ "-" ++ toString (raw.lastStopOrder.getD 0)

/-- Raw record whose lastStopOrder field is missing. -/
def rawB : RawVehicle := { emptyRaw with vehicleID := some 7 }

/-- Claim C4 counterexample: with lastStopOrder missing, `makeId` builds
"7-undefined" (JS template interpolation of `undefined`), not the "7-0"
the claim's 0-defaulting would give. -/
theorem C4_counterexample :
    (normalizeVehicle rawB none 0).id = "7-undefined" ∧
    specCompositeId rawB = "7-0" ∧
    (normalizeVehicle rawB none 0).id ≠ specCompositeId rawB := by
  decide

/-- Claim C4 (amended): the composite id is
`<physicalId>-<lastStopOrder>` by direct string interpolation; when both
numeric fields are present this is exactly the claimed shape, but a
missing field renders as the literal "undefined" rather than 0. -/
theorem C4_amended (raw : RawVehicle) (m : Option (List (String × Vehicle))) (now : Nat) :
    (normalizeVehicle raw m now).id
        = jsNumStr raw.vehicleID ++ "-" ++ jsNumStr raw.lastStopOrder ∧
    (∀ pid lso : Int, raw.vehicleID = some pid → raw.lastStopOrder = some lso →
      (normalizeVehicle raw m now).id = toString pid ++ "-" ++ toString lso) := by
  refine ⟨rfl, ?_⟩
  intro pid lso h1 h2
  simp [normalizeVehicle, makeId, jsNumStr, h1, h2]

/-- Witness for C4 (amended) at concrete inputs. -/
theorem C4_amended_witness :
    (normalizeVehicle rawA none 3).id = toString (7 : Int) ++ "-" ++ toString (3 : Int) :=
  (C4_amended rawA none 3).2 7 3 rfl rfl

/-- Claim C5 counterexample: two evaluations of `normalizeVehicles` on the
same (rawList, previousMap) made at different clock instants differ
(`Date.now()` is baked into every record's lastSeen field), so the output
is not a function of (rawList, previousMap) alone. -/
theorem C5_counterexample :
    normalizeVehicles [rawB] none 0 ≠ normalizeVehicles [rawB] none 1 := by
  have e0 : (normalizeVehicles [rawB] none 0).map (fun kv => kv.2.lastSeen) = [0] := rfl
  have e1 : (normalizeVehicles [rawB] none 1).map (fun kv => kv.2.lastSeen) = [1] := rfl
  intro h
  rw [h, e1] at e0
  exact absurd e0 (by simp)

/-- Erase the capture timestamp of a record (for up-to-lastSeen equality). -/
def clearLastSeen (v : Vehicle) : Vehicle := { v with lastSeen := 0 }

theorem normalizeVehicle_clearLastSeen (raw : RawVehicle)
    (m : Option (List (String × Vehicle))) (t1 t2 : Nat) :
    clearLastSeen (normalizeVehicle raw m t1) = clearLastSeen (normalizeVehicle raw m t2) := rfl

theorem alSet_map_val {κ α : Type} [DecidableEq κ] (m : List (κ × α)) (k : κ) (v : α)
    (f : α → α) :
    (alSet m k v).map (fun kv => (kv.1, f kv.2))
      = alSet (m.map (fun kv => (kv.1, f kv.2))) k (f v) := by
  induction m with
  | nil => simp [alSet]
  | cons kv rest ih =>
    by_cases hk : kv.1 = k
    · simp [alSet, hk]
    · simp [alSet, hk, ih]

theorem normalizeVehicles_clear_go (m : Option (List (String × Vehicle))) (t1 t2 : Nat)
    (rawList : List RawVehicle) :
    ∀ acc1 acc2 : List (String × Vehicle),
      acc1.map (fun kv => (kv.1, clearLastSeen kv.2))
        = acc2.map (fun kv => (kv.1, clearLastSeen kv.2)) →
      (rawList.foldl (fun map raw =>
          let v := normalizeVehicle raw m t1
          alSet map v.id v) acc1).map (fun kv => (kv.1, clearLastSeen kv.2))
        = (rawList.foldl (fun map raw =>
            let v := normalizeVehicle raw m t2
            alSet map v.id v) acc2).map (fun kv => (kv.1, clearLastSeen kv.2)) := by
  induction rawList with
  | nil =>
    intro a1 a2 h
    simpa using h
  | cons raw rest ih =>
    intro a1 a2 h
    simp only [List.foldl_cons]
    apply ih
    show (alSet a1 (normalizeVehicle raw m t1).id (normalizeVehicle raw m t1)).map _ = _
    rw [alSet_map_val, alSet_map_val, h]
    have hid : (normalizeVehicle raw m t1).id = (normalizeVehicle raw m t2).id := rfl
    rw [hid, normalizeVehicle_clearLastSeen raw m t1 t2]

/-- Claim C5 (amended): normalization is a pure function of
(rawList, previousMap, capture timestamp): evaluations at the same
timestamp coincide definitionally, and up to the lastSeen field the
output does not depend on the timestamp at all; inputs are never
modified (the output is a freshly built map). -/
theorem C5_amended (rawList : List RawVehicle) (m : Option (List (String × Vehicle)))
    (t1 t2 : Nat) :
    (normalizeVehicles rawList m t1).map (fun kv => (kv.1, clearLastSeen kv.2))
      = (normalizeVehicles rawList m t2).map (fun kv => (kv.1, clearLastSeen kv.2)) ∧
    normalizeVehicles rawList m t1 = normalizeVehicles rawList m t1 := by
  refine ⟨?_, rfl⟩
  exact normalizeVehicles_clear_go m t1 t2 rawList [] [] rfl

/-! ## Poll scheduler (useVehicles) - claims C2, C6 -/

/-- Shape of the parsed JSON body, as `fetchVehicles` inspects it:
an object whose `vehicles` field may or may not be an array, a bare
array, or anything else. -/
inductive FeedData where
  | obj (vehicles : Option (List RawVehicle))
  | arr (items : List RawVehicle)
  | other
deriving DecidableEq

/-- The defensive raw-list extraction of `fetchVehicles`. -/
def feedRawList : FeedData → List RawVehicle
  | .obj (some vs) => vs
  | .obj none => []
  | .arr vs => vs
  | .other => []

/-- The hook's state: canonical map, fetch metadata and the backoff ref. -/
structure VehiclesState where
  vehicles : List (String × Vehicle)
  lastFetch : Option Nat
  error : Option String
  loading : Bool
  reloading : Bool
  backoff : Nat
deriving DecidableEq

/-- One `fetchVehicles` call as a state transition. `outcome` is the
result of the try block up to JSON parsing: `Except.error` covers both a
network throw and the `!res.ok` throw. -/
def fetchVehiclesStep (st : VehiclesState) (outcome : Except String FeedData)
    (now : Nat) (manual : Bool) : VehiclesState :=
  let st0 := if manual then { st with reloading := true } else st
  match outcome with
  | .ok feed =>
      let rawList := feedRawList feed
      let newMap := normalizeVehicles rawList (some st0.vehicles) now
      let st1 :=
        { st0 with
            vehicles := newMap
            lastFetch := some now
            error := none
            loading := false
            backoff := 1 }
      if manual then { st1 with reloading := false } else st1
  | .error msg =>
      let st1 :=
        { st0 with
            error := some msg
            loading := false
            backoff := min (st0.backoff * 2) 12 }
      if manual then { st1 with reloading := false } else st1

/-- The timer interval computed by `schedule`:
`settings.pollInterval * 1000 * backoffRef.current`. -/
def scheduleInterval (pollInterval : ℚ) (backoff : Nat) : ℚ :=
  pollInterval * 1000 * backoff

/-- N consecutive failed scheduled fetches from a given state. -/
def applyFailures (msgs : Nat → String) (times : Nat → Nat) (st : VehiclesState) :
    Nat → VehiclesState
  | 0 => st
  | n + 1 => fetchVehiclesStep (applyFailures msgs times st n) (.error (msgs n)) (times n) false

/-- Claim C6: a failed fetch (network error or non-success status) leaves
the canonical vehicle map exactly as it was and records the error message
in the error state. -/
theorem C6_failed_fetch_preserves_map (st : VehiclesState) (msg : String)
    (now : Nat) (manual : Bool) :
    (fetchVehiclesStep st (.error msg) now manual).vehicles = st.vehicles ∧
    (fetchVehiclesStep st (.error msg) now manual).error = some msg := by
  cases manual <;> simp [fetchVehiclesStep]

/-- Claim C2: starting from backoff multiplier 1, N consecutive failures
leave the multiplier at min(2^N, 12); any successful fetch resets it to
1; and the wait before the next scheduled fetch is the base poll interval
(in ms) times the current multiplier. -/
theorem C2_backoff (msgs : Nat → String) (times : Nat → Nat) (st : VehiclesState)
    (h : st.backoff = 1) :
    (∀ N, (applyFailures msgs times st N).backoff = min (2 ^ N) 12) ∧
    (∀ st' : VehiclesState, ∀ feed : FeedData, ∀ now : Nat, ∀ manual : Bool,
      (fetchVehiclesStep st' (.ok feed) now manual).backoff = 1) ∧
    (∀ pollInterval : ℚ, ∀ b : Nat,
      scheduleInterval pollInterval b = (pollInterval * 1000) * b) := by
  refine ⟨?_, ?_, ?_⟩
  · intro N
    induction N with
    | zero => simpa [applyFailures] using h
    | succ n ih =>
      have h2 : (2 : Nat) ^ (n + 1) = 2 ^ n * 2 := pow_succ 2 n
      simp [applyFailures, fetchVehiclesStep, ih]
      omega
  · intro st' feed now manual
    cases manual <;> simp [fetchVehiclesStep]
  · intro pollInterval b
    rfl

/-- All-empty initial hook state (fresh `useVehicles` mount). -/
def stA : VehiclesState :=
  { vehicles := [], lastFetch := none, error := none, loading := true,
    reloading := false, backoff := 1 }

/-- Witness for C2 at a concrete state and N = 4. -/
theorem C2_witness :
    stA.backoff = 1 ∧
    (applyFailures (fun _ => "HTTP 500") (fun _ => 0) stA 4).backoff = min (2 ^ 4) 12 :=
  ⟨rfl, (C2_backoff (fun _ => "HTTP 500") (fun _ => 0) stA rfl).1 4⟩

/-! ## Route geometry chunking (useRoutedPath / fetchChunkedRoute) - claim C7 -/

/-- Maximum waypoints per OSRM request (public server limit). -/
def MAX_WAYPOINTS : Nat := 80

/-- Overlap between chunks to ensure continuity. -/
def CHUNK_OVERLAP : Nat := 2

/-- The (start, end) index pairs of the slices pushed by the while-loop of
`fetchChunkedRoute` (each iteration takes `end = min(i + MAX_WAYPOINTS,
len)`, pushes `waypoints.slice(i, end)`, stops when `end ≥ len`, else
continues from `i = end - CHUNK_OVERLAP`). -/
def chunkBounds (len i : Nat) : List (Nat × Nat) :=
  if i < len then
    if min (i + MAX_WAYPOINTS) len ≥ len then [(i, min (i + MAX_WAYPOINTS) len)]
    else (i, min (i + MAX_WAYPOINTS) len) ::
      chunkBounds len (min (i + MAX_WAYPOINTS) len - CHUNK_OVERLAP)
  else []
termination_by len - i
decreasing_by
  simp only [MAX_WAYPOINTS, CHUNK_OVERLAP] at *
  omega

/-- The chunks `fetchChunkedRoute` requests: the whole list when it fits in
one request, else the loop's slices (`slice(i, e)` = drop `i`, take
`e - i`). -/
def routeChunks {α : Type} (ws : List α) : List (List α) :=
  if ws.length ≤ MAX_WAYPOINTS then [ws]
  else (chunkBounds ws.length 0).map (fun p => ((ws.drop p.1).take (p.2 - p.1)))

theorem chunkBounds_snd (len i : Nat) :
    ∀ p ∈ chunkBounds len i, p.2 = min (p.1 + MAX_WAYPOINTS) len := by
  induction i using chunkBounds.induct len with
  | case1 x hlt hge =>
    intro p hp
    rw [chunkBounds.eq_def, if_pos hlt, if_pos hge] at hp
    rcases List.mem_singleton.mp hp with rfl
    rfl
  | case2 x hlt hge ih =>
    intro p hp
    rw [chunkBounds.eq_def, if_pos hlt, if_neg hge] at hp
    rcases List.mem_cons.mp hp with rfl | h
    · rfl
    · exact ih p h
  | case3 x hlt =>
    intro p hp
    rw [chunkBounds.eq_def, if_neg hlt] at hp
    simp at hp

theorem chunkBounds_head (len i : Nat) (h : i < len) :
    (chunkBounds len i).head? = some (i, min (i + MAX_WAYPOINTS) len) := by
  rw [chunkBounds.eq_def]
  by_cases hge : min (i + MAX_WAYPOINTS) len ≥ len <;> simp [if_pos h, hge]

theorem chunkBounds_chain (len i : Nat) :
    List.Chain' (fun p q => q.1 = p.2 - CHUNK_OVERLAP) (chunkBounds len i) := by
  induction i using chunkBounds.induct len with
  | case1 x hlt hge =>
    rw [chunkBounds.eq_def, if_pos hlt, if_pos hge]
    simp
  | case2 x hlt hge ih =>
    rw [chunkBounds.eq_def, if_pos hlt, if_neg hge]
    refine List.chain'_cons'.mpr ⟨?_, ih⟩
    intro q hq
    have hnext : min (x + MAX_WAYPOINTS) len - CHUNK_OVERLAP < len := by
      simp only [MAX_WAYPOINTS, CHUNK_OVERLAP] at *
      omega
    rw [chunkBounds_head len _ hnext] at hq
    rcases Option.mem_some_iff.mp hq with rfl
    rfl
  | case3 x hlt =>
    rw [chunkBounds.eq_def, if_neg hlt]
    simp

theorem chunkBounds_last (len i : Nat) :
    ((chunkBounds len i).map Prod.snd).getLast? = if i < len then some len else none := by
  induction i using chunkBounds.induct len with
  | case1 x hlt hge =>
    have he : min (x + MAX_WAYPOINTS) len = len :=
      le_antisymm (min_le_right _ _) hge
    rw [chunkBounds.eq_def, if_pos hlt, if_pos hge, if_pos hlt, he]
    simp
  | case2 x hlt hge ih =>
    have hnext : min (x + MAX_WAYPOINTS) len - CHUNK_OVERLAP < len := by
      simp only [MAX_WAYPOINTS, CHUNK_OVERLAP] at *
      omega
    rw [chunkBounds.eq_def, if_pos hlt, if_neg hge, List.map_cons, if_pos hlt]
    rw [if_pos hnext] at ih
    cases hM : (chunkBounds len (min (x + MAX_WAYPOINTS) len - CHUNK_OVERLAP)).map Prod.snd with
    | nil => rw [hM] at ih; simp at ih
    | cons a as =>
      rw [hM] at ih
      rw [List.getLast?_cons_cons, ih]
  | case3 x hlt =>
    rw [chunkBounds.eq_def, if_neg hlt]
    simp [hlt]

theorem chunkBounds_150 : chunkBounds 150 0 = [(0, 80), (78, 150)] := by
  rw [chunkBounds.eq_def]
  norm_num [MAX_WAYPOINTS, CHUNK_OVERLAP]
  rw [chunkBounds.eq_def]
  norm_num [MAX_WAYPOINTS, CHUNK_OVERLAP]

/-- Claim C7: for a waypoint list longer than the per-request limit, every
chunk has length at most the limit, each chunk after the first starts
exactly CHUNK_OVERLAP (= 2) waypoints before the previous chunk's end,
the last chunk ends at the final waypoint, and 150 waypoints produce
exactly the two bounds (0, 80) and (78, 150). -/
theorem C7_chunk_split {α : Type} (ws : List α) (h : MAX_WAYPOINTS < ws.length) :
    routeChunks ws
        = (chunkBounds ws.length 0).map (fun p => ((ws.drop p.1).take (p.2 - p.1))) ∧
    (∀ c ∈ routeChunks ws, c.length ≤ MAX_WAYPOINTS) ∧
    List.Chain' (fun p q => q.1 = p.2 - CHUNK_OVERLAP) (chunkBounds ws.length 0) ∧
    ((chunkBounds ws.length 0).map Prod.snd).getLast? = some ws.length ∧
    chunkBounds 150 0 = [(0, 80), (78, 150)] := by
  have hn : ¬ ws.length ≤ MAX_WAYPOINTS := by omega
  refine ⟨by rw [routeChunks, if_neg hn], ?_, chunkBounds_chain _ _, ?_, chunkBounds_150⟩
  · intro c hc
    rw [routeChunks, if_neg hn] at hc
    rcases List.mem_map.mp hc with ⟨p, hp, rfl⟩
    have h2 := chunkBounds_snd ws.length 0 p hp
    simp only [List.length_take, List.length_drop]
    simp only [MAX_WAYPOINTS] at *
    omega
  · rw [chunkBounds_last, if_pos (by omega)]

/-- Witness for C7: 150 waypoints (limit 80) give exactly 2 chunks. -/
theorem C7_witness :
    MAX_WAYPOINTS < (List.range 150).length ∧
    (routeChunks (List.range 150)).length = 2 := by
  have h : MAX_WAYPOINTS < (List.range 150).length := by
    simp [MAX_WAYPOINTS]
  refine ⟨h, ?_⟩
  have hc := C7_chunk_split (List.range 150) h
  rw [hc.1]
  rw [show (List.range 150).length = 150 by simp, hc.2.2.2.2]
  rfl

/-! ## Routed-path hook effect (useRoutedPath) - claim C8 -/

/-- A trip stop (src/types, `TripStop`). -/
structure TripStop where
  stopOrder : ℚ
  stopID : ℚ
  stopName : String
  stopCity : String
  platformNumber : ℚ
  platformName : String
  plannedDepartureMinutes : ℚ
  plannedDepartureTimestamp : String
  latitude : ℚ
  longitude : ℚ
  zones : String
  crossing : Bool
deriving DecidableEq

/-- The state owned by `useRoutedPath`. -/
structure RoutedState where
  routedPath : List (ℚ × ℚ)
  loading : Bool
deriving DecidableEq

/-- `tripStops.map((ts) => [ts.longitude, ts.latitude])`. -/
def waypointsOf (tripStops : List TripStop) : List (ℚ × ℚ) :=
  tripStops.map (fun ts => (ts.longitude, ts.latitude))

/-- One run of the `useRoutedPath` effect for a given stop list:
`outcome` is how the `fetchChunkedRoute` promise settled (`Except.error`
covers a throw anywhere: bad status, malformed response, network error),
`aborted` whether this run's controller was aborted before settling (in
which case neither `.then`, `.catch` nor `.finally` touches state). -/
def useRoutedPathEffect (tripStops : List TripStop) (prev : RoutedState)
    (outcome : Except String (List (ℚ × ℚ))) (aborted : Bool) : RoutedState :=
  if tripStops.length < 2 then { routedPath := [], loading := false }
  else
    let waypoints := waypointsOf tripStops
    match outcome with
    | .ok coords =>
        if aborted then { prev with loading := true }
        else { routedPath := coords, loading := false }
    | .error _ =>
        if aborted then { prev with loading := true }
        else { routedPath := waypoints, loading := false }

/-- Claim C8: for at least 2 stops, a failed (and uncancelled) routing
request makes the routed path exactly the original waypoint list - each
stop's (lng, lat) in order - and the effect completes normally (loading
cleared, no error state exists to surface the failure as a hard error). -/
theorem C8_fallback (tripStops : List TripStop) (prev : RoutedState) (e : String)
    (h2 : 2 ≤ tripStops.length) :
    (useRoutedPathEffect tripStops prev (.error e) false).routedPath
        = tripStops.map (fun ts => (ts.longitude, ts.latitude)) ∧
    (useRoutedPathEffect tripStops prev (.error e) false).loading = false := by
  rw [useRoutedPathEffect, if_neg (by omega)]
  exact ⟨rfl, rfl⟩

/-- Concrete trip stops for the C8 witness. -/
def tsA : TripStop :=
  { stopOrder := 1, stopID := 10, stopName := "A", stopCity := "", platformNumber := 0,
    platformName := "", plannedDepartureMinutes := 0, plannedDepartureTimestamp := "",
    latitude := 48, longitude := 17, zones := "", crossing := false }

/-- Second concrete trip stop. -/
def tsB : TripStop :=
  { tsA with stopOrder := 2, stopID := 11, stopName := "B", latitude := 49, longitude := 18 }

/-- Witness for C8 at two concrete stops. -/
theorem C8_witness :
    2 ≤ [tsA, tsB].length ∧
    (useRoutedPathEffect [tsA, tsB] ⟨[], false⟩ (.error "OSRM: 500") false).routedPath
        = [(17, 48), (18, 49)] := by
  refine ⟨by decide, ?_⟩
  rw [(C8_fallback [tsA, tsB] ⟨[], false⟩ "OSRM: 500" (by decide)).1]
  rfl

/-! ## Heading-angle normalisation (VehicleLayer.angleDiff / angleDelta) - claim C9

JS numbers are modelled as rationals; `Math.PI` is the exact rational
value of the IEEE-754 double nearest pi. -/

/-- The exact value of the JS double `Math.PI` (7074237752028440 / 2^51). -/
def piQ : ℚ := 884279719003555 / 281474976710656

theorem piQ_pos : (0 : ℚ) < piQ := by norm_num [piQ]

/-- First loop of both angle helpers: `while (d > Math.PI) d -= 2 * Math.PI`. -/
def wrapDown (d : ℚ) : ℚ :=
  if piQ < d then wrapDown (d - 2 * piQ) else d
termination_by (Int.ceil ((d - piQ) / (2 * piQ))).toNat
decreasing_by
  have hpi := piQ_pos
  have h2pi : (0 : ℚ) < 2 * piQ := by linarith
  have hx : (0 : ℚ) < (d - piQ) / (2 * piQ) := div_pos (by linarith) h2pi
  have hceil : 1 ≤ Int.ceil ((d - piQ) / (2 * piQ)) := Int.ceil_pos.mpr hx
  have harg : (d - 2 * piQ - piQ) / (2 * piQ) = (d - piQ) / (2 * piQ) - 1 := by
    field_simp
    ring
  rw [harg, Int.ceil_sub_one]
  omega

/-- Second loop of both angle helpers: `while (d < -Math.PI) d += 2 * Math.PI`. -/
def wrapUp (d : ℚ) : ℚ :=
  if d < -piQ then wrapUp (d + 2 * piQ) else d
termination_by (Int.ceil ((-piQ - d) / (2 * piQ))).toNat
decreasing_by
  have hpi := piQ_pos
  have h2pi : (0 : ℚ) < 2 * piQ := by linarith
  have hx : (0 : ℚ) < (-piQ - d) / (2 * piQ) := div_pos (by linarith) h2pi
  have hceil : 1 ≤ Int.ceil ((-piQ - d) / (2 * piQ)) := Int.ceil_pos.mpr hx
  have harg : (-piQ - (d + 2 * piQ)) / (2 * piQ) = (-piQ - d) / (2 * piQ) - 1 := by
    field_simp
    ring
  rw [harg, Int.ceil_sub_one]
  omega

/-- `angleDelta(target, current)`: signed smallest rotation, as the two
sequential wrap loops compute it. -/
def angleDelta (target current : ℚ) : ℚ :=
  wrapUp (wrapDown (target - current))

/-- `angleDiff(a, b)`: magnitude of the wrapped difference (`Math.abs`). -/
def angleDiff (a b : ℚ) : ℚ :=
  |wrapUp (wrapDown (a - b))|

theorem wrapDown_le (d : ℚ) : wrapDown d ≤ piQ := by
  induction d using wrapDown.induct with
  | case1 d h ih => rw [wrapDown.eq_def, if_pos h]; exact ih
  | case2 d h => rw [wrapDown.eq_def, if_neg h]; linarith

theorem wrapDown_cases (d : ℚ) : wrapDown d = d ∨ -piQ < wrapDown d := by
  induction d using wrapDown.induct with
  | case1 d h ih =>
    rw [wrapDown.eq_def, if_pos h]
    right
    rcases ih with he | hgt
    · rw [he]
      have := piQ_pos
      linarith
    · exact hgt
  | case2 d h => left; rw [wrapDown.eq_def, if_neg h]

theorem wrapUp_ge (d : ℚ) : -piQ ≤ wrapUp d := by
  induction d using wrapUp.induct with
  | case1 d h ih => rw [wrapUp.eq_def, if_pos h]; exact ih
  | case2 d h => rw [wrapUp.eq_def, if_neg h]; linarith

theorem wrapUp_cases (d : ℚ) : wrapUp d = d ∨ wrapUp d < piQ := by
  induction d using wrapUp.induct with
  | case1 d h ih =>
    rw [wrapUp.eq_def, if_pos h]
    right
    rcases ih with he | hlt
    · rw [he]
      have := piQ_pos
      linarith
    · exact hlt
  | case2 d h => left; rw [wrapUp.eq_def, if_neg h]

/-- Claim C9 counterexample: for target 0 and current pi the computed
angle difference is exactly -pi, which lies outside the claimed
half-open interval (-pi, pi]. -/
theorem C9_counterexample :
    angleDelta 0 piQ = -piQ ∧ ¬ (-piQ < angleDelta 0 piQ) := by
  have hpi := piQ_pos
  have h1 : wrapDown (0 - piQ) = 0 - piQ := by
    rw [wrapDown.eq_def, if_neg (by linarith)]
  have h2 : wrapUp (0 - piQ) = 0 - piQ := by
    rw [wrapUp.eq_def, if_neg (by linarith)]
  have h3 : angleDelta 0 piQ = -piQ := by
    rw [angleDelta, h1, h2]
    ring
  exact ⟨h3, by rw [h3]; simp⟩

/-- Claim C9 (amended): the rate-limiting angle difference always lies in
the closed interval [-pi, pi] (the lower endpoint -pi is attainable), and
the magnitude of any angle-difference computation - including the
road-matching deviation `angleDiff` - never exceeds pi. -/
theorem C9_angle_range (target current a b : ℚ) :
    -piQ ≤ angleDelta target current ∧ angleDelta target current ≤ piQ ∧
    0 ≤ angleDiff a b ∧ angleDiff a b ≤ piQ := by
  have key : ∀ x : ℚ, -piQ ≤ wrapUp (wrapDown x) ∧ wrapUp (wrapDown x) ≤ piQ := by
    intro x
    have h1 : wrapDown x ≤ piQ := wrapDown_le x
    refine ⟨wrapUp_ge _, ?_⟩
    rcases wrapUp_cases (wrapDown x) with he | hlt
    · rw [he]; exact h1
    · linarith
  have kd := key (target - current)
  have ka := key (a - b)
  refine ⟨kd.1, kd.2, abs_nonneg _, ?_⟩
  rw [angleDiff, abs_le]
  exact ⟨ka.1, ka.2⟩

/-! ## VehicleLayer.updateVehicles - claim C1

The layer's per-vehicle loop, stale-group removal and heading-tracker
cleanup are embedded as a pure state transition. Host-owned geometry
(`MercatorCoordinate` projection, `Math.atan2`, the
`queryRenderedFeatures`-driven road matcher) enters as function
parameters; the rendered THREE.Group keeps only the fields the layer
reads or writes. -/

/-- One `headingTracker` entry: local position at last update, smoothed
heading and the sticky road-segment key. -/
structure HeadingEntry where
  x : ℚ
  z : ℚ
  heading : ℚ
  roadKey : Option String
deriving DecidableEq

/-- A successful result of `getRoadMatch`. -/
structure RoadMatch where
  heading : ℚ
  roadKey : String
  score : ℚ
deriving DecidableEq

/-- The fields of a rendered vehicle group that `updateVehicles` touches
(`userData.targetHeading` / `userData.targetScale` start out unset). -/
structure GroupState where
  posX : ℚ
  posZ : ℚ
  rotY : ℚ
  targetHeading : Option ℚ
  targetScale : Option ℚ
deriving DecidableEq

/-- Visual scale multiplier (6.5). -/
def VISUAL_SCALE : ℚ := 13 / 2

/-- A freshly built vehicle group (`buildVehicle`): rotation 0, no
userData targets yet. -/
def newGroup : GroupState :=
  { posX := 0, posZ := 0, rotY := 0, targetHeading := none, targetScale := none }

/-- Host capabilities the layer calls out to. -/
structure LayerHost where
  toLocal : ℚ → ℚ → ℚ × ℚ
  atan2 : ℚ → ℚ → ℚ
  getRoadMatch : ℚ → ℚ → Option ℚ → Option String → Option RoadMatch

/-- The layer's bookkeeping maps and selection. -/
structure LayerState where
  groups : List (String × GroupState)
  data : List (String × Vehicle)
  headingTracker : List (Option Int × HeadingEntry)
  selectedVehicleId : Option String
deriving DecidableEq

/-- What the loop body computes for one vehicle: the heading-tracker entry
written for `v.vehicleID` and the updated group. `Math.hypot(dx, dz) > 2`
is written as `dx^2 + dz^2 > 4` (equivalent over the rationals). In the
no-road-match, tracker-present, not-moved branch the code leaves the
(mutable) entry untouched; re-writing the unchanged entry under the same
key is the same map. -/
def vehicleStepParts (host : LayerHost) (st : LayerState) (v : Vehicle) :
    HeadingEntry × GroupState :=
  let p := host.toLocal v.longitude v.latitude
  let lx := p.1
  let lz := p.2
  let grp0 := (alGet st.groups v.id).getD newGroup
  let grp1 :=
    { grp0 with
        posX := lx
        posZ := lz
        targetScale := some (if st.selectedVehicleId = some v.id
          then VISUAL_SCALE * (5 / 4) else VISUAL_SCALE) }
  let tracker := alGet st.headingTracker v.vehicleID
  let movementHeading : Option ℚ :=
    match tracker with
    | some t =>
        if (lx - t.x) ^ 2 + (lz - t.z) ^ 2 > 4
        then some (-(host.atan2 (lz - t.z) (lx - t.x))) else none
    | none => none
  let preferredHeading := movementHeading.orElse (fun _ => tracker.map HeadingEntry.heading)
  match host.getRoadMatch v.longitude v.latitude preferredHeading
      (tracker.bind HeadingEntry.roadKey), tracker with
  | some rm, some _ =>
      ({ x := lx, z := lz, heading := rm.heading, roadKey := some rm.roadKey },
       { grp1 with targetHeading := some rm.heading })
  | some rm, none =>
      ({ x := lx, z := lz, heading := rm.heading, roadKey := some rm.roadKey },
       { grp1 with targetHeading := some rm.heading, rotY := rm.heading })
  | none, some t =>
      let entry :=
        if (lx - t.x) ^ 2 + (lz - t.z) ^ 2 > 4
        then { x := lx, z := lz, heading := -(host.atan2 (lz - t.z) (lx - t.x)),
               roadKey := t.roadKey }
        else t
      (entry, { grp1 with targetHeading := some entry.heading })
  | none, none =>
      ({ x := lx, z := lz, heading := 0, roadKey := none },
       { grp1 with targetHeading := some 0 })

/-- The `for (const v of vehicles)` body: group created-or-updated, data
recorded, tracker entry written. -/
def updateOneVehicle (host : LayerHost) (st : LayerState) (v : Vehicle) : LayerState :=
  { st with
      groups := alSet st.groups v.id (vehicleStepParts host st v).2
      data := alSet st.data v.id v
      headingTracker := alSet st.headingTracker v.vehicleID (vehicleStepParts host st v).1 }

/-- `updateVehicles`: loop over the list, remove groups (and their data
entries) whose compound id is not alive, then drop tracker entries whose
physical id no longer occurs. -/
def updateVehicles (host : LayerHost) (st : LayerState) (vehicles : List Vehicle) :
    LayerState :=
  let st1 := vehicles.foldl (updateOneVehicle host) st
  let alive := vehicles.map Vehicle.id
  let st2 :=
    { st1 with
        groups := st1.groups.filter (fun kv => decide (kv.1 ∈ alive))
        data := st1.data.filter (fun kv =>
          decide (kv.1 ∈ alive) || !(decide (kv.1 ∈ st1.groups.map Prod.fst))) }
  let aliveVehicleIDs := vehicles.map Vehicle.vehicleID
  { st2 with
      headingTracker :=
        st2.headingTracker.filter (fun kv => decide (kv.1 ∈ aliveVehicleIDs)) }

theorem updateOneVehicle_tracker_keys (host : LayerHost) (st : LayerState) (v : Vehicle)
    (k : Option Int) :
    (alGet (updateOneVehicle host st v).headingTracker k).isSome
      ↔ k = v.vehicleID ∨ (alGet st.headingTracker k).isSome := by
  show (alGet (alSet st.headingTracker v.vehicleID (vehicleStepParts host st v).1) k).isSome
      ↔ _
  rw [alGet_alSet]
  by_cases h : k = v.vehicleID <;> simp [h]

theorem foldl_tracker_keys (host : LayerHost) (vehicles : List Vehicle) :
    ∀ st : LayerState, ∀ k : Option Int,
      (alGet (vehicles.foldl (updateOneVehicle host) st).headingTracker k).isSome
        ↔ (alGet st.headingTracker k).isSome ∨ k ∈ vehicles.map Vehicle.vehicleID := by
  induction vehicles with
  | nil =>
    intro st k
    simp
  | cons v rest ih =>
    intro st k
    simp only [List.foldl_cons, List.map_cons, List.mem_cons]
    rw [ih, updateOneVehicle_tracker_keys]
    tauto

/-- Claim C1: after any `updateVehicles` call, from any prior layer state,
the heading-tracker map has an entry exactly for the physical vehicle ids
(`vehicleID`) occurring in the vehicle list passed to that update - no
extras, no omissions. -/
theorem C1_headingTracker_keys (host : LayerHost) (st : LayerState)
    (vehicles : List Vehicle) (k : Option Int) :
    (alGet (updateVehicles host st vehicles).headingTracker k).isSome
      ↔ k ∈ vehicles.map Vehicle.vehicleID := by
  show (alGet (((vehicles.foldl (updateOneVehicle host) st).headingTracker).filter
      (fun kv => decide (kv.1 ∈ vehicles.map Vehicle.vehicleID))) k).isSome ↔ _
  have hf := alGet_filter_keys ((vehicles.foldl (updateOneVehicle host) st).headingTracker)
    (fun x => decide (x ∈ vehicles.map Vehicle.vehicleID)) k
  rw [foldl_tracker_keys] at hf
  constructor
  · intro h
    simpa using (hf.mp h).2
  · intro h
    exact hf.mpr ⟨Or.inr h, by simpa using h⟩

/-! ## Trip-stop parsing (src/utils/tripStops.ts) - claim C10

The unknown-typed JSON input is modelled by `JVal`. A JS number is
`num (Option ℚ)` with `none` standing for a non-finite value (so
`Number.isFinite` filtering and the null result of `toNumber` coincide
on `none`). `Number.parseFloat` is host string parsing and enters as the
abstract parameter `pf` (`none` = non-finite parse). `String(v)` on
non-string collections and truthiness of non-finite numbers are
approximated; neither affects the verified properties. -/

/-- JS runtime values as `tripStops.ts` inspects them. -/
inductive JVal where
  | null
  | jundefined
  | bool (b : Bool)
  | num (x : Option ℚ)
  | str (s : String)
  | arr (xs : List JVal)
  | obj (fields : List (String × JVal))

/-- Nullish test (null or undefined), for `??`. -/
def isNullish : JVal → Bool
  | .null => true
  | .jundefined => true
  | _ => false

/-- Property read `row.k`: throws a TypeError on null/undefined, yields
the field (or undefined) on objects, undefined on other primitives (none
of the keys this module reads exist on their prototypes). -/
def jsGet : JVal → String → Except Unit JVal
  | .null, _ => .error ()
  | .jundefined, _ => .error ()
  | .obj fields, k => .ok ((alGet fields k).getD .jundefined)
  | _, _ => .ok .jundefined

/-- Total property read, used to describe `jsGet` on non-nullish values. -/
def jsGetT : JVal → String → JVal
  | .obj fields, k => (alGet fields k).getD .jundefined
  | _, _ => .jundefined

/-- `row.k1 ?? row.k2` (second read only when the first is nullish). -/
def jsGet2 (row : JVal) (k1 k2 : String) : Except Unit JVal := do
  let a ← jsGet row k1
  if isNullish a then jsGet row k2 else pure a

/-- Total form of `jsGet2` on non-nullish rows. -/
def jsGet2T (row : JVal) (k1 k2 : String) : JVal :=
  if isNullish (jsGetT row k1) then jsGetT row k2 else jsGetT row k1

/-- `a ?? b` on already-read values. -/
def nn (a b : JVal) : JVal := if isNullish a then b else a

/-- `toNumber`: finite numbers pass, strings go through parseFloat with a
finiteness check, everything else is null (`none`). -/
def toNumber (pf : String → Option ℚ) : JVal → Option ℚ
  | .num (some x) => some x
  | .num none => none
  | .str s => pf s
  | _ => none

/-- JS `String(v)`; array stringification approximated (unused by the
claims). -/
def jsToString : JVal → String
  | .null => "null"
  | .jundefined => "undefined"
  | .bool true => "true"
  | .bool false => "false"
  | .num (some q) => toString q
  | .num none => "NaN"
  | .str s => s
  | .arr _ => ""
  | .obj _ => "[object Object]"

/-- JS `Boolean(v)`; a non-finite number is treated as NaN (falsy). -/
def jsTruthy : JVal → Bool
  | .null => false
  | .jundefined => false
  | .bool b => b
  | .num (some q) => decide (q ≠ 0)
  | .num none => false
  | .str s => decide (s ≠ "")
  | .arr _ => true
  | .obj _ => true

/-- The object literal `toStop` returns once both coordinates parsed
(field expressions read in source order). -/
def mkStop (pf : String → Option ℚ) (row : JVal) (latitude longitude : ℚ) :
    Except Unit TripStop := do
  let stopOrderV ← jsGet row "stopOrder"
  let stopIDV ← jsGet2 row "stopID" "id"
  let stopNameV ← jsGet2 row "stopName" "name"
  let stopCityV ← jsGet2 row "stopCity" "cityName"
  let platformNumberV ← jsGet2 row "platformNumber" "platform"
  let platformNameV ← jsGet2 row "platformName" "platform"
  let pdmV ← jsGet row "plannedDepartureMinutes"
  let pdtV ← jsGet row "plannedDepartureTimestamp"
  let zonesV ← jsGet row "zones"
  let crossingV ← jsGet row "crossing"
  pure
    { stopOrder := (toNumber pf stopOrderV).getD 0
      stopID := (toNumber pf stopIDV).getD 0
      stopName := jsToString (nn stopNameV (.str "Unknown stop"))
      stopCity := jsToString (nn stopCityV (.str ""))
      platformNumber := (toNumber pf platformNumberV).getD 0
      platformName := jsToString (nn platformNameV (.str ""))
      plannedDepartureMinutes := (toNumber pf pdmV).getD 0
      plannedDepartureTimestamp := jsToString (nn pdtV (.str ""))
      latitude := latitude
      longitude := longitude
      zones := jsToString (nn zonesV (.str ""))
      crossing := jsTruthy crossingV }

/-- `toStop`: null when either coordinate is unusable; throws when `row`
itself is null/undefined (the very first property access). -/
def toStop (pf : String → Option ℚ) (row : JVal) : Except Unit (Option TripStop) := do
  let latV ← jsGet2 row "latitude" "lat"
  let lngV ← jsGet2 row "longitude" "lng"
  match toNumber pf latV, toNumber pf lngV with
  | some latitude, some longitude => do
      let s ← mkStop pf row latitude longitude
      pure (some s)
  | _, _ => pure none

/-- Total form of `mkStop` on non-nullish rows. -/
def mkStopT (pf : String → Option ℚ) (row : JVal) (latitude longitude : ℚ) : TripStop :=
  { stopOrder := (toNumber pf (jsGetT row "stopOrder")).getD 0
    stopID := (toNumber pf (jsGet2T row "stopID" "id")).getD 0
    stopName := jsToString (nn (jsGet2T row "stopName" "name") (.str "Unknown stop"))
    stopCity := jsToString (nn (jsGet2T row "stopCity" "cityName") (.str ""))
    platformNumber := (toNumber pf (jsGet2T row "platformNumber" "platform")).getD 0
    platformName := jsToString (nn (jsGet2T row "platformName" "platform") (.str ""))
    plannedDepartureMinutes := (toNumber pf (jsGetT row "plannedDepartureMinutes")).getD 0
    plannedDepartureTimestamp := jsToString (nn (jsGetT row "plannedDepartureTimestamp") (.str ""))
    latitude := latitude
    longitude := longitude
    zones := jsToString (nn (jsGetT row "zones") (.str ""))
    crossing := jsTruthy (jsGetT row "crossing") }

/-- Total form of `toStop` on non-nullish rows. -/
def toStopT (pf : String → Option ℚ) (row : JVal) : Option TripStop :=
  match toNumber pf (jsGet2T row "latitude" "lat"),
      toNumber pf (jsGet2T row "longitude" "lng") with
  | some latitude, some longitude => some (mkStopT pf row latitude longitude)
  | _, _ => none

/-- `Array.isArray(obj.k) ? obj.k : nothing`. -/
def fieldArr (fields : List (String × JVal)) (k : String) : Option (List JVal) :=
  match alGet fields k with
  | some (.arr xs) => some xs
  | _ => none

/-- The wrapper-shape selection of `parseTripStops`: a bare array, else a
truthy object's first array field among tripStops/stops/data/result,
else no rows. -/
def selectRows : JVal → List JVal
  | .arr xs => xs
  | .obj fields =>
      ((fieldArr fields "tripStops").orElse (fun _ =>
        (fieldArr fields "stops").orElse (fun _ =>
          (fieldArr fields "data").orElse (fun _ =>
            fieldArr fields "result")))).getD []
  | _ => []

/-- The sort comparator `(a, b) => a.stopOrder - b.stopOrder` as an
ordering test. -/
def stopLE (a b : TripStop) : Bool := decide (a.stopOrder ≤ b.stopOrder)

/-- `parseTripStops`: select rows, map `toStop`, drop nulls, sort by
stopOrder (JS sort is a comparator-sorted stable permutation; modelled
by stable merge sort). -/
def parseTripStops (pf : String → Option ℚ) (v : JVal) : Except Unit (List TripStop) := do
  let opts ← (selectRows v).mapM (toStop pf)
  pure ((opts.filterMap id).mergeSort stopLE)

theorem exbind_ok {eps alpha beta : Type} (a : alpha) (f : alpha → Except eps beta) :
    (Except.ok a >>= f : Except eps beta) = f a := rfl

theorem jsGet_ok (row : JVal) (k : String) (h : isNullish row = false) :
    jsGet row k = .ok (jsGetT row k) := by
  cases row <;> simp_all [isNullish, jsGet, jsGetT]

theorem jsGet2_ok (row : JVal) (k1 k2 : String) (h : isNullish row = false) :
    jsGet2 row k1 k2 = .ok (jsGet2T row k1 k2) := by
  rw [jsGet2, jsGet_ok row k1 h]
  rw [jsGet2T]
  by_cases hn : isNullish (jsGetT row k1) = true
  · simp only [exbind_ok]
    rw [if_pos hn, if_pos hn, jsGet_ok row k2 h]
  · simp only [exbind_ok]
    rw [if_neg hn, if_neg hn]
    rfl

theorem mkStop_ok (pf : String → Option ℚ) (row : JVal) (la lo : ℚ)
    (h : isNullish row = false) :
    mkStop pf row la lo = .ok (mkStopT pf row la lo) := by
  rw [mkStop, mkStopT]
  simp only [jsGet_ok, jsGet2_ok, h, exbind_ok]
  rfl

theorem toStop_ok (pf : String → Option ℚ) (row : JVal) (h : isNullish row = false) :
    toStop pf row = .ok (toStopT pf row) := by
  rw [toStop, toStopT]
  simp only [jsGet2_ok, h, exbind_ok]
  cases hla : toNumber pf (jsGet2T row "latitude" "lat") <;>
    cases hlo : toNumber pf (jsGet2T row "longitude" "lng")
  · rfl
  · rfl
  · rfl
  · simp only [mkStop_ok, h, exbind_ok]
    rfl

theorem mapM_ok {alpha beta : Type} (f : alpha → Except Unit beta) (g : alpha → beta) :
    ∀ xs : List alpha, (∀ x ∈ xs, f x = .ok (g x)) → xs.mapM f = .ok (xs.map g) := by
  intro xs
  induction xs with
  | nil => intro _; rfl
  | cons x rest ih =>
    intro h
    rw [List.mapM_cons, h x (by simp), ih (fun y hy => h y (by simp [hy]))]
    rfl

/-- Claim C10 counterexample: an array containing a null row makes
`parseTripStops` throw (property access on null) instead of returning
the empty list the claim's "rows are dropped" universal would require. -/
theorem C10_counterexample :
    parseTripStops (fun _ => none) (.arr [.null]) = .error () ∧
    parseTripStops (fun _ => none) (.arr [.null]) ≠ .ok [] := by
  have h1 : parseTripStops (fun _ => none) (.arr [.null]) = .error () := rfl
  refine ⟨h1, ?_⟩
  rw [h1]
  intro h
  exact Except.noConfusion h

/-- Claim C10 (amended): provided no selected row is null/undefined (a
null row throws), `parseTripStops` returns a list sorted in
non-decreasing stopOrder that is a permutation of exactly the
successfully converted rows, and a row converts precisely when both its
latitude and longitude resolve to finite numbers; non-array,
non-wrapping inputs select no rows. -/
theorem C10_parse_sorted (pf : String → Option ℚ) (v : JVal)
    (hrows : ∀ row ∈ selectRows v, isNullish row = false) :
    ∃ l, parseTripStops pf v = .ok l ∧
      List.Pairwise (fun a b => a.stopOrder ≤ b.stopOrder) l ∧
      l.Perm ((selectRows v).filterMap (toStopT pf)) ∧
      (∀ row ∈ selectRows v, (toStopT pf row).isSome ↔
        ((toNumber pf (jsGet2T row "latitude" "lat")).isSome ∧
         (toNumber pf (jsGet2T row "longitude" "lng")).isSome)) := by
  have hm : (selectRows v).mapM (toStop pf) = .ok ((selectRows v).map (toStopT pf)) :=
    mapM_ok _ _ _ (fun row hr => toStop_ok pf row (hrows row hr))
  refine ⟨((selectRows v).filterMap (toStopT pf)).mergeSort stopLE, ?_, ?_, ?_, ?_⟩
  · rw [parseTripStops, hm]
    simp only [exbind_ok]
    rw [List.filterMap_map]
    rfl
  · have hs := @List.sorted_mergeSort TripStop stopLE
      (fun a b c hab hbc => by
        simp only [stopLE, decide_eq_true_eq] at *
        exact le_trans hab hbc)
      (fun a b => by
        simp only [stopLE]
        rcases le_total a.stopOrder b.stopOrder with h | h <;> simp [h])
      ((selectRows v).filterMap (toStopT pf))
    exact hs.imp (fun h => by simpa [stopLE] using h)
  · exact List.mergeSort_perm _ _
  · intro row hr
    rw [toStopT]
    cases hla : toNumber pf (jsGet2T row "latitude" "lat") <;>
      cases hlo : toNumber pf (jsGet2T row "longitude" "lng") <;> simp

/-- Concrete trip-stops payload: one good row, one row with an unparsable
latitude, one non-object row. -/
def jvA : JVal :=
  .arr [ .obj [("latitude", .num (some 48)), ("longitude", .num (some 17)),
               ("stopOrder", .num (some 2))],
         .obj [("latitude", .str "x")],
         .num (some 5) ]

/-- Witness for C10 (amended) at a concrete payload. -/
theorem C10_witness :
    (∀ row ∈ selectRows jvA, isNullish row = false) ∧
    (∃ l, parseTripStops (fun _ => none) jvA = .ok l ∧
      List.Pairwise (fun a b => a.stopOrder ≤ b.stopOrder) l) := by
  refine ⟨by decide, ?_⟩
  rcases C10_parse_sorted (fun _ => none) jvA (by decide) with ⟨l, h1, h2, -, -⟩
  exact ⟨l, h1, h2⟩
